import Mathlib

set_option maxRecDepth 4000

/-!
Shallow embedding of the LEB128 VarInt decoders presented in
`src/pages/blog/varint_decode.md`.

The JavaScript functions are modelled as Lean functions over `List Nat`
(the contents of the `Uint8Array` argument; a `Uint8Array` element is
always in `0..255`, and every use of a byte in the source masks to the
low 8 bits anyway, so no separate range side condition is needed).

JavaScript 32-bit semantics that matter here:
* `x << p` converts `x` to Int32 and shifts by `ToUint32(p) & 31`,
  truncating to 32 bits.  The intermediate accumulator is only ever
  observed through further `|`, `<<` and the `Uint32Array` store, all of
  which act on the 32-bit pattern, so the accumulator is represented by
  its unsigned 32-bit pattern (a `Nat` kept below `2 ^ 32`).
* `U32_VIEW[k] = x` stores the 32-bit pattern of `x` into lane `k` of the
  8-byte scratch buffer; `U64_VIEW[0]` reads the two lanes
  little-endian, i.e. `lo + hi * 2 ^ 32`; `U64_VIEW[0] = 0n` zeroes both
  lanes.  The scratch buffer is modelled as a pair `(lo, hi)` of
  naturals, passed explicitly to the functions that share it
  (`jsDecodeV2`/`V3`/`V4`), since in the source it is module-level
  mutable state surviving between calls.
* A JavaScript `throw` is modelled by `Except.error` carrying the
  message.
-/

/-- JavaScript shift count for `x << pos`: `ToUint32(pos) & 31`. -/
def shiftCount (pos : Int) : Nat :=
  ((pos % 4294967296).toNat) % 32

/-- One accumulation step, `intermediate |= (byte & 0x7F) << position`
from the source (all four `jsDecode` variants), on 32-bit patterns. -/
def accumulate (inter b : Nat) (pos : Int) : Nat :=
  inter ||| (((b &&& 0x7F) <<< shiftCount pos) % 4294967296)

/-- The reseed of the accumulator on the flush iteration:
`intermediate = (byte >>> 3) & 0x07` in the source (all variants). -/
def flushReseed (b : Nat) : Nat :=
  (b >>> 3) &&& 0x07

/-- The terminal-byte test `(byte & 0x80) !== 0x80` from the source. -/
def isTerminalByte (b : Nat) : Bool :=
  b &&& 0x80 != 0x80

/-- The terminal write `U32_VIEW[Number(i > 3)] = intermediate` from the
source: lane 1 (high word) when `i > 3`, lane 0 (low word) otherwise. -/
def writeLane (view : Nat × Nat) (i : Nat) (inter : Nat) : Nat × Nat :=
  if i > 3 then (view.1, inter) else (inter, view.2)

/-- Reading `U64_VIEW[0]`: the two 32-bit lanes reinterpreted as one
little-endian 64-bit value. -/
def U64ofView (view : Nat × Nat) : Nat :=
  view.1 + view.2 * 4294967296

/-- The statement `U64_VIEW[0] = 0n` (in `jsDecodeV2`/`V3`/`V4`): zeroes
both 32-bit lanes of the shared scratch buffer, whatever they held. -/
def resetView (_view : Nat × Nat) : Nat × Nat :=
  (0, 0)

/-- Loop body of `jsDecodeV1` (identical in `jsDecodeV2` and
`jsDecodeV3`): guard `i === 11`, accumulate, on `position === 28` flush
the accumulator to the low lane, reseed and set `position = 3`, else
`position += 7`; stop on a byte with a clear continuation bit, writing
the accumulator to lane `Number(i > 3)`. -/
def v1Loop : List Nat → Nat → Nat × Nat → Nat → Int → Except String (Nat × Nat)
  | [], _, view, _, _ => .ok view
  | b :: rest, i, view, inter, pos =>
    if i = 11 then .error "Maximum size reached"
    else
      let inter2 := accumulate inter b pos
      let s := if pos = 28 then ((inter2, view.2), flushReseed b, (3 : Int))
               else (view, inter2, pos + 7)
      if isTerminalByte b then .ok (writeLane s.1 i s.2.1)
      else v1Loop rest (i + 1) s.1 s.2.1 s.2.2

/-- Loop body of `jsDecodeV4`: as `v1Loop`, but branchless position
update — the flush iteration sets `position = -4` and every iteration
then executes `position += 7`. -/
def v4Loop : List Nat → Nat → Nat × Nat → Nat → Int → Except String (Nat × Nat)
  | [], _, view, _, _ => .ok view
  | b :: rest, i, view, inter, pos =>
    if i = 11 then .error "Maximum size reached"
    else
      let inter2 := accumulate inter b pos
      let s := if pos = 28 then ((inter2, view.2), flushReseed b, (-4 : Int))
               else (view, inter2, pos)
      if isTerminalByte b then .ok (writeLane s.1 i s.2.1)
      else v4Loop rest (i + 1) s.1 s.2.1 (s.2.2 + 7)

/-- `jsDecodeV1`: allocates a fresh (zeroed) 8-byte scratch buffer on
every call, then runs the loop and reads `u64View[0]`. -/
def jsDecodeV1 (input : List Nat) : Except String Nat :=
  (v1Loop input 0 (0, 0) 0 0).map U64ofView

/-- `jsDecodeV2`: the hoisted module-level scratch buffer (its prior
contents `view`) is first reset via `U64_VIEW[0] = 0n`. -/
def jsDecodeV2 (view : Nat × Nat) (input : List Nat) : Except String Nat :=
  (v1Loop input 0 (resetView view) 0 0).map U64ofView

/-- `jsDecodeV3`: as `jsDecodeV2` with `input.length` hoisted into a
local constant, which has no observable effect in this model (the input
list is immutable). -/
def jsDecodeV3 (view : Nat × Nat) (input : List Nat) : Except String Nat :=
  (v1Loop input 0 (resetView view) 0 0).map U64ofView

/-- `jsDecodeV4`: reset of the shared scratch buffer, then the
branchless loop. -/
def jsDecodeV4 (view : Nat × Nat) (input : List Nat) : Except String Nat :=
  (v4Loop input 0 (resetView view) 0 0).map U64ofView

/-- Loop of `bigintDecode`: `value |= (byte & 0x7F) << length` on
arbitrary-precision BigInts, `length += 7`, `i++`, throw once `i > 10`,
stop on a clear continuation bit returning `[value, i]`.  Reading past
the end of the buffer gives `undefined`, and `BigInt(undefined)` throws
a `TypeError`. -/
def bigintLoop : List Nat → Nat → Nat → Nat → Except String (Nat × Nat)
  | [], _, _, _ => .error "TypeError: undefined cannot be converted to a BigInt"
  | b :: rest, i, value, length =>
    let value2 := value ||| ((b &&& 0x7F) <<< length)
    if i + 1 > 10 then .error "Max Length Reached"
    else if isTerminalByte b then .ok (value2, i + 1)
    else bigintLoop rest (i + 1) value2 (length + 7)

/-- `bigintDecode`: the BigInt reference decoder, returning the decoded
value together with the number of bytes consumed. -/
def bigintDecode (buffer : List Nat) : Except String (Nat × Nat) :=
  bigintLoop buffer 0 0 0

/-- Zero-based index of the first byte whose continuation bit is clear,
if any. -/
def firstTerminal : List Nat → Option Nat
  | [] => none
  | b :: rest =>
    if isTerminalByte b then some 0 else (firstTerminal rest).map (· + 1)

/-- Lane selection in the words of the specification: the final
accumulator goes to the low word when fewer than 5 bytes have been
consumed, and to the high word from the 5th byte onward. -/
def writeLaneSpec (view : Nat × Nat) (consumed : Nat) (inter : Nat) : Nat × Nat :=
  if consumed < 5 then (inter, view.2) else (view.1, inter)

/-- Flushing preserves 32-bit-boundedness of the accumulator. -/
theorem accumulate_lt (inter b : Nat) (pos : Int) (h : inter < 2 ^ 32) :
    accumulate inter b pos < 2 ^ 32 :=
  Nat.or_lt_two_pow h (Nat.mod_lt _ (by norm_num))

/-- C1: the 5-byte LEB128 encoding of 0xFFFFFFFF decodes, under
`jsDecodeV4` and `jsDecodeV1`, to 8589934591 = 0x1FFFFFFFF, not to the
claimed 0xFFFFFFFF = 4294967295: the reseed `(byte >>> 3) & 0x07` keeps
byte bits 3..5, so bit 3 of the fifth byte is counted both at bit 31 of
the low word and at bit 0 of the high word. -/
theorem c1_lane_boundary_flush_value :
    jsDecodeV4 (0, 0) [0xFF, 0xFF, 0xFF, 0xFF, 0x0F] = .ok 8589934591 ∧
    jsDecodeV1 [0xFF, 0xFF, 0xFF, 0xFF, 0x0F] = .ok 8589934591 ∧
    (8589934591 : Nat) ≠ 0xFFFFFFFF :=
  ⟨rfl, rfl, by norm_num⟩

/-- C2: at the position-28 flush the source reseeds the accumulator with
`(byte >>> 3) & 0x07` (byte bits 3..5), not with the claimed
`(byte >> 4) & 0x07` (byte bits 4..6, the complement of the 4 consumed
bits); on the byte 0x0F the two differ: 1 versus 0. -/
theorem c2_flush_reseed_bits :
    flushReseed 0x0F = 1 ∧ (0x0F >>> 4) &&& 0x07 = 0 ∧
    flushReseed 0x0F ≠ (0x0F >>> 4) &&& 0x07 :=
  ⟨rfl, rfl, by decide⟩

/-- C3: an input of exactly 11 bytes, all with the continuation bit set,
does not fail: `jsDecodeV4` returns 0 successfully, because the
`i === 11` guard only fires when a 12th byte is processed; a 12-byte
all-continuation input does throw "Maximum size reached". -/
theorem c3_overlong_bound :
    jsDecodeV4 (0, 0) (List.replicate 11 0x80) = .ok 0 ∧
    jsDecodeV4 (0, 0) (List.replicate 12 0x80) = .error "Maximum size reached" :=
  ⟨rfl, rfl⟩

/-- C4 counterexample: the truncated buffer [0x80] (its only byte has
the continuation bit set) does not fail with any error: `jsDecodeV4`
returns the partial value 0 as a success. -/
theorem c4_truncated_counterexample :
    jsDecodeV4 (0, 0) [0x80] = .ok 0 :=
  rfl

/-- Any run of the `jsDecodeV4` loop over at most `11 - i` remaining
bytes ends in `.ok`: the only error exit is the `i === 11` guard. -/
theorem v4Loop_ok_of_short (bytes : List Nat) :
    ∀ (i : Nat) (view : Nat × Nat) (inter : Nat) (pos : Int),
      i + bytes.length ≤ 11 →
      ∃ r, v4Loop bytes i view inter pos = .ok r := by
  induction bytes with
  | nil => intro i view inter pos _; exact ⟨view, rfl⟩
  | cons b rest ih =>
    intro i view inter pos h
    have hi : ¬ i = 11 := by simp at h; omega
    simp only [v4Loop, hi, if_false]
    split
    · exact ⟨_, rfl⟩
    · exact ih (i + 1) _ _ _ (by simp at h ⊢; omega)

/-- C4 amended: a buffer that ends mid-sequence within the 11-byte
bound makes `jsDecodeV4` return the partially accumulated value as a
success — the fast path has no Malformed error (though it neither reads
out of bounds nor loops forever: any input of length at most 11 yields
`.ok`). -/
theorem c4_truncated_within_bound_ok (view : Nat × Nat) (input : List Nat)
    (h : input.length ≤ 11) :
    ∃ v, jsDecodeV4 view input = .ok v := by
  obtain ⟨r, hr⟩ := v4Loop_ok_of_short input 0 (resetView view) 0 0 (by omega)
  exact ⟨U64ofView r, by simp [jsDecodeV4, hr, Except.map]⟩

/-- Witness for the amended C4 on the concrete truncated buffer
[0x80, 0x80]. -/
theorem c4_truncated_within_bound_ok_witness :
    [0x80, 0x80].length ≤ 11 ∧ ∃ v, jsDecodeV4 (0, 0) [0x80, 0x80] = .ok v :=
  ⟨by decide, c4_truncated_within_bound_ok (0, 0) [0x80, 0x80] (by decide)⟩

/-- C6: the terminal write of the fast decoders,
`U32_VIEW[Number(i > 3)] = intermediate`, places the final accumulator
exactly as the specification words it: with `i + 1` bytes consumed, the
low word receives it when fewer than 5 bytes have been consumed
(`i ≤ 3`) and the high word from the 5th byte onward (`i > 3`). -/
theorem c6_lane_selection (view : Nat × Nat) (i : Nat) (inter : Nat) :
    writeLane view i inter = writeLaneSpec view (i + 1) inter := by
  unfold writeLane writeLaneSpec
  rcases Nat.lt_or_ge 3 i with h | h
  · rw [if_pos h, if_neg (by omega)]
  · rw [if_neg (by omega), if_pos (by omega)]

/-- C8: on the empty input buffer, `jsDecodeV2`, `jsDecodeV3` and
`jsDecodeV4` return 0 without error, whatever the shared scratch buffer
held before the call: the view is zeroed at entry and the loop body
never runs. -/
theorem c8_empty_input (s t u : Nat × Nat) :
    jsDecodeV2 s [] = .ok 0 ∧ jsDecodeV3 t [] = .ok 0 ∧
    jsDecodeV4 u [] = .ok 0 := by
  refine ⟨?_, ?_, ?_⟩
  · show (v1Loop [] 0 (0, 0) 0 0).map U64ofView = .ok 0
    rfl
  · show (v1Loop [] 0 (0, 0) 0 0).map U64ofView = .ok 0
    rfl
  · show (v4Loop [] 0 (0, 0) 0 0).map U64ofView = .ok 0
    rfl

/-- C9: `jsDecodeV4` is insensitive to the residue the shared scratch
buffer holds from earlier calls: `U64_VIEW[0] = 0n` at entry zeroes both
32-bit lanes, so the result depends only on the input bytes. -/
theorem c9_reset_determinism (s t : Nat × Nat) (input : List Nat) :
    jsDecodeV4 s input = jsDecodeV4 t input := by
  unfold jsDecodeV4 resetView
  rfl

/-- Arithmetic of the branchless trick: the reseed offset −4 followed by
the unconditional `position += 7` lands on 3. -/
theorem neg_four_add_seven : (-4 : Int) + 7 = 3 := by norm_num

/-- The plain-conditional loop and the branchless loop compute the same
result from any state: the flush iteration ends with `position = 3`
either way, and every other iteration adds 7 in both. -/
theorem v1Loop_eq_v4Loop (bytes : List Nat) :
    ∀ (i : Nat) (view : Nat × Nat) (inter : Nat) (pos : Int),
      v1Loop bytes i view inter pos = v4Loop bytes i view inter pos := by
  induction bytes with
  | nil => intro i view inter pos; rfl
  | cons b rest ih =>
    intro i view inter pos
    by_cases hi : i = 11
    · simp [v1Loop, v4Loop, hi]
    · by_cases hp : pos = 28 <;> by_cases hb : isTerminalByte b <;>
        simp [v1Loop, v4Loop, hi, hp, hb, ih, neg_four_add_seven]

/-- C7: the four decoder variants agree on every input, each run from a
fresh (or freshly reset) scratch state: `jsDecodeV1` (per-call
allocation), `jsDecodeV2` (hoisted scratch plus reset), `jsDecodeV3`
(hoisted length) and `jsDecodeV4` (branchless position update) return
identical results, errors included. -/
theorem c7_variants_agree (input : List Nat) (s t : Nat × Nat) :
    jsDecodeV1 input = jsDecodeV4 s input ∧
    jsDecodeV2 s input = jsDecodeV4 t input ∧
    jsDecodeV3 s input = jsDecodeV4 t input := by
  refine ⟨?_, ?_, ?_⟩ <;>
    simp [jsDecodeV1, jsDecodeV2, jsDecodeV3, jsDecodeV4, resetView,
      v1Loop_eq_v4Loop]

/-- A successful run of the `bigintDecode` loop consumes exactly up to
the first terminal byte: starting at index `i`, it returns the count
`i + j + 1` where `j` is the offset of the first byte with a clear
continuation bit. -/
theorem bigintLoop_consumed (bytes : List Nat) :
    ∀ (i value length v n : Nat),
      bigintLoop bytes i value length = .ok (v, n) →
      ∃ j, firstTerminal bytes = some j ∧ n = i + j + 1 := by
  induction bytes with
  | nil => intro i value length v n h; simp [bigintLoop] at h
  | cons b rest ih =>
    intro i value length v n h
    by_cases h10 : i + 1 > 10
    · simp [bigintLoop, h10] at h
    · by_cases hb : isTerminalByte b
      · simp [bigintLoop, h10, hb] at h
        exact ⟨0, by simp [firstTerminal, hb], by omega⟩
      · simp only [bigintLoop, if_neg h10, hb, if_false, Bool.false_eq_true] at h
        obtain ⟨j, hj, hn⟩ := ih (i + 1) _ _ v n h
        exact ⟨j + 1, by simp [firstTerminal, hb, hj], by omega⟩

/-- C5: whenever the reference decoder `bigintDecode` succeeds, the
count it returns alongside the decoded value equals the zero-based
index of the first byte whose continuation bit is clear, plus one. -/
theorem c5_consumed_count (buffer : List Nat) (v n : Nat)
    (h : bigintDecode buffer = .ok (v, n)) :
    ∃ j, firstTerminal buffer = some j ∧ n = j + 1 := by
  obtain ⟨j, hj, hn⟩ := bigintLoop_consumed buffer 0 0 0 v n h
  exact ⟨j, hj, by omega⟩

/-- Witness for C5 on the one-byte buffer [0x00]: the decode succeeds
with count 1, and the first terminal byte is at index 0. -/
theorem c5_consumed_count_witness :
    bigintDecode [0x00] = .ok (0, 1) ∧
    ∃ j, firstTerminal [0x00] = some j ∧ 1 = j + 1 :=
  ⟨rfl, c5_consumed_count [0x00] 0 1 rfl⟩

/-- When the first terminal byte lies within the first four bytes, the
`jsDecodeV4` loop never reaches `position = 28`, so the high lane keeps
its initial 0 and the returned low lane stays below `2 ^ 32`. -/
theorem v4Loop_low (bytes : List Nat) :
    ∀ (j i lo inter : Nat) (pos : Int),
      firstTerminal bytes = some j → i + j ≤ 3 → inter < 2 ^ 32 →
      pos = 7 * (i : Int) →
      ∃ v, v4Loop bytes i (lo, 0) inter pos = .ok (v, 0) ∧ v < 2 ^ 32 := by
  induction bytes with
  | nil => intro j i lo inter pos h _ _ _; simp [firstTerminal] at h
  | cons b rest ih =>
    intro j i lo inter pos hft hle hlt hpos
    have hi : ¬ i = 11 := by omega
    have hp : ¬ pos = 28 := by omega
    by_cases hb : isTerminalByte b
    · have hi3 : ¬ i > 3 := by omega
      exact ⟨accumulate inter b pos,
        by simp [v4Loop, hi, hp, hb, writeLane, hi3],
        accumulate_lt _ _ _ hlt⟩
    · rw [firstTerminal] at hft
      simp only [hb, Bool.false_eq_true, if_false, Option.map_eq_some'] at hft
      obtain ⟨j', hj', hjeq⟩ := hft
      obtain ⟨v, hv, hvlt⟩ := ih j' (i + 1) lo (accumulate inter b pos)
        (pos + 7) hj' (by omega) (accumulate_lt _ _ _ hlt)
        (by rw [hpos]; push_cast; ring)
      exact ⟨v, by simp [v4Loop, hi, hp, hb, hv], hvlt⟩

/-- C10: on any input whose terminal byte sits at zero-based index at
most 3, `jsDecodeV4` only ever writes the low 32-bit lane — the high
lane keeps the 0 from the entry reset — so the returned value is
strictly below `2 ^ 32`. -/
theorem c10_low_lane (view : Nat × Nat) (input : List Nat) (j : Nat)
    (h1 : firstTerminal input = some j) (h2 : j ≤ 3) :
    ∃ v, jsDecodeV4 view input = .ok v ∧ v < 2 ^ 32 := by
  obtain ⟨v, hv, hlt⟩ := v4Loop_low input j 0 0 0 0 h1 (by omega)
    (by norm_num) (by norm_num)
  refine ⟨v, ?_, hlt⟩
  simp only [jsDecodeV4, resetView]
  rw [hv]
  simp [Except.map, U64ofView]

/-- Witness for C10 on the one-byte buffer [0x7F]: the terminal byte is
at index 0 and the decoded value is below `2 ^ 32`. -/
theorem c10_low_lane_witness :
    firstTerminal [0x7F] = some 0 ∧ (0 : Nat) ≤ 3 ∧
    ∃ v, jsDecodeV4 (0, 0) [0x7F] = .ok v ∧ v < 2 ^ 32 :=
  ⟨rfl, by norm_num, c10_low_lane (0, 0) [0x7F] 0 rfl (by norm_num)⟩
